import Mathlib

/-!
Shallow embedding of `crates/lsp/src/lsp_pool.rs` (the LSP client pool
manager) and proofs about its behaviour.

Modelling conventions:
* `Instant` is a `Nat` tick count; every call of `Instant::now()` inside one
  pool operation is modelled by the single `now` parameter of that operation.
* `Arc<Mutex<GenericLspClient>>` handles are identified by the `Nat` id of the
  underlying client: two handles are handles to the same underlying client
  exactly when the ids agree.
* The `HashMap<LanguageId, Vec<PooledClient>>` is an association list with
  (in any reachable state) pairwise distinct keys; `lookupLang` models
  `get`/`get_mut` and `setLang` models writing through `entry(..).or_default()`.
* External effects are parameters: a spawn-and-initialize attempt sequence is
  `outcome : Nat → Except String GenericLspClient` (indexed by the 1-based
  attempt number), and `create_client_with_retry` additionally returns the
  number of attempts made and the list of backoff sleeps (in ms) it performed,
  which in the Rust code are observable through `std::thread::sleep`.
* `min_ref_count` starts at `usize::MAX` in the source; with unbounded `Nat`
  reference counts this is modelled by an `Option` accumulator that accepts
  the first root-matching record unconditionally.
-/

namespace LspPool

/-- Cached summary of negotiated server capabilities (`CapabilitiesSummary`). -/
structure CapabilitiesSummary where
  supports_document_symbol : Bool
  supports_definition : Bool
  supports_references : Bool
  supports_type_definition : Bool
  supports_implementation : Bool
  supports_workspace_symbol : Bool
  supports_call_hierarchy : Bool
  supports_semantic_tokens : Bool
deriving DecidableEq, Repr

/-- A live LSP client as the pool sees it at creation time: the identity of
the `Arc` handle plus the `has_capability` query surface of
`GenericLspClient`. -/
structure GenericLspClient where
  id : Nat
  has_capability : String → Bool

/-- One pooled client record (`PooledClient`): the client handle identity,
last-used tick, project root, reference count, capability summary and
instance id. -/
structure PooledClient where
  client : Nat
  last_used : Nat
  project_root : String
  ref_count : Nat
  capabilities_summary : CapabilitiesSummary
  instance_id : Nat
deriving DecidableEq, Repr

/-- Pool configuration (`PoolConfig`); durations are in milliseconds. -/
structure PoolConfig where
  max_instances_per_language : Nat
  max_idle_time : Nat
  init_timeout : Nat
  request_timeout : Nat
  max_retries : Nat
deriving DecidableEq, Repr

/-- `PoolConfig::default()`. -/
def PoolConfig.default : PoolConfig :=
  { max_instances_per_language := 4
  , max_idle_time := 300000
  , init_timeout := 8000
  , request_timeout := 2000
  , max_retries := 1 }

/-- The pool state (`LspClientPool`): language-keyed records plus the shared
atomic instance-id counter. -/
structure LspClientPool where
  clients : List (String × List PooledClient)
  config : PoolConfig
  next_instance_id : Nat
deriving DecidableEq, Repr

/-- Pool statistics (`PoolStats`). -/
structure PoolStats where
  total_clients : Nat
  active_clients : Nat
  languages : List String
deriving DecidableEq, Repr

/-- `HashMap::get` on the association list. -/
def lookupLang : List (String × List PooledClient) → String → Option (List PooledClient)
  | [], _ => none
  | (k, v) :: rest, lang => if k = lang then some v else lookupLang rest lang

/-- Writing a language's record list through `entry(lang).or_default()`:
replace the value at the key if present, otherwise insert the entry. -/
def setLang : List (String × List PooledClient) → String → List PooledClient →
    List (String × List PooledClient)
  | [], lang, v => [(lang, v)]
  | (k, v0) :: rest, lang, v =>
    if k = lang then (lang, v) :: rest else (k, v0) :: setLang rest lang v

/-- Modelled from the spec: `get_language_id` lives in `crates/lsp/src/adapter/lsp.rs`,
which is not among the provided sources.  §4.1 says the language is derived
from the file extension; `create_client_internal` enumerates the supported
extension/language pairs. -/
def get_language_id (file_path : String) : Option String :=
  if file_path.endsWith (".rs") then some ("rust")
  else if file_path.endsWith (".ts") then some ("typescript")
  else if file_path.endsWith (".js") then some ("javascript")
  else if file_path.endsWith (".py") then some ("python")
  else if file_path.endsWith (".go") then some ("go")
  else if file_path.endsWith (".java") then some ("java")
  else if file_path.endsWith (".nix") then some ("nix")
  else none

/-- The capability summary computed right after a successful creation: one
`has_capability` query per tracked capability name. -/
def computeSummary (c : GenericLspClient) : CapabilitiesSummary :=
  { supports_document_symbol := c.has_capability ("textDocument/documentSymbol")
  , supports_definition := c.has_capability ("textDocument/definition")
  , supports_references := c.has_capability ("textDocument/references")
  , supports_type_definition := c.has_capability ("textDocument/typeDefinition")
  , supports_implementation := c.has_capability ("textDocument/implementation")
  , supports_workspace_symbol := c.has_capability ("workspace/symbol")
  , supports_call_hierarchy := c.has_capability ("textDocument/prepareCallHierarchy")
  , supports_semantic_tokens := c.has_capability ("textDocument/semanticTokens") }

/-- An all-false capability summary, used for concrete test clients. -/
def capsNone : CapabilitiesSummary :=
  { supports_document_symbol := false
  , supports_definition := false
  , supports_references := false
  , supports_type_definition := false
  , supports_implementation := false
  , supports_workspace_symbol := false
  , supports_call_hierarchy := false
  , supports_semantic_tokens := false }

/-- One step of the reuse scan of `get_or_create_client`: state is
`(idx, best)` where `best = some (i, m)` records the index and reference
count of the best root-matching candidate so far. -/
def reuseStep (root : String) (st : Nat × Option (Nat × Nat)) (p : PooledClient) :
    Nat × Option (Nat × Nat) :=
  let improves : Bool :=
    decide (p.project_root = root) &&
      (match st.2 with
       | none => true
       | some (_, m) => decide (p.ref_count < m))
  (st.1 + 1, if improves then some (st.1, p.ref_count) else st.2)

/-- The reuse scan of `get_or_create_client`: index of the root-matching
record with minimal reference count, first match winning ties. -/
def findBestReuse (xs : List PooledClient) (root : String) : Option Nat :=
  ((xs.foldl (reuseStep root) (0, none)).2).map Prod.fst

/-- Invariant of the reuse scan: after consuming `processed`, the index part
of the state is the number of records seen, and the accumulator describes
the first minimal root-matching record among them. -/
def ReuseInv (root : String) (processed : List PooledClient)
    (st : Nat × Option (Nat × Nat)) : Prop :=
  st.1 = processed.length ∧
  match st.2 with
  | none => ∀ q ∈ processed, q.project_root ≠ root
  | some (i, m) =>
    ∃ pre p post, processed = pre ++ p :: post ∧ pre.length = i ∧
      p.project_root = root ∧ p.ref_count = m ∧
      (∀ q ∈ pre, q.project_root = root → m < q.ref_count) ∧
      (∀ q ∈ post, q.project_root = root → m ≤ q.ref_count)

/-- One step of the eviction scan of `get_or_create_client`: state is
`(idx, oldest_time, oldest_idle_idx)`; a record qualifies when its reference
count is zero and it is strictly older than the best so far (initially
`now`). -/
def idleStep (st : Nat × Nat × Option Nat) (p : PooledClient) : Nat × Nat × Option Nat :=
  if p.ref_count = 0 ∧ p.last_used < st.2.1 then (st.1 + 1, p.last_used, some st.1)
  else (st.1 + 1, st.2.1, st.2.2)

/-- The eviction scan of `get_or_create_client`: index of the oldest record
with reference count 0 whose `last_used` is strictly before `now`. -/
def findOldestIdle (xs : List PooledClient) (now : Nat) : Option Nat :=
  (xs.foldl idleStep (0, now, none)).2.2

/-- The `for attempt in 1..=max_retries` loop of `create_client_with_retry`,
structurally recursive on the remaining attempt budget.  Returns the result,
the number of attempts actually made, and the backoff sleeps performed. -/
def retryGo (outcome : Nat → Except String GenericLspClient) :
    Nat → Nat → Option String → Except String GenericLspClient × Nat × List Nat
  | 0, attempt, lastError =>
    (Except.error (lastError.getD ("Failed to create LSP client")), attempt - 1, [])
  | remaining + 1, attempt, _ =>
    match outcome attempt with
    | Except.ok c => (Except.ok c, attempt, [])
    | Except.error e =>
      if remaining = 0 then (Except.error e, attempt, [])
      else
        let rest := retryGo outcome remaining (attempt + 1) (some e)
        (rest.1, rest.2.1, 5 * 2 ^ attempt :: rest.2.2)

/-- `create_client_with_retry`: up to `max_retries` attempts, sleeping
`5ms * 2^attempt` between consecutive attempts, surfacing the last error. -/
def create_client_with_retry (cfg : PoolConfig)
    (outcome : Nat → Except String GenericLspClient) :
    Except String GenericLspClient × Nat × List Nat :=
  retryGo outcome cfg.max_retries 1 none

/-- The tail of the creation path of `get_or_create_client`: run the retry
loop and on success install a record whose `instance_id` is the current
length of the language's instance list. -/
def creationPathLen (pool : LspClientPool) (language_id project_root : String)
    (now : Nat) (outcome : Nat → Except String GenericLspClient) :
    Except String Nat × LspClientPool :=
  match (create_client_with_retry pool.config outcome).1 with
  | Except.error e => (Except.error e, pool)
  | Except.ok c =>
    let caps := computeSummary c
    let instances := (lookupLang pool.clients language_id).getD []
    let newRecord : PooledClient :=
      { client := c.id
      , last_used := now
      , project_root := project_root
      , ref_count := 1
      , capabilities_summary := caps
      , instance_id := instances.length }
    (Except.ok c.id,
     { pool with clients := setLang pool.clients language_id (instances ++ [newRecord]) })

/-- `get_or_create_client` after language resolution: reuse scan, slot-count
check with one-shot eviction, busy fallback to the first instance, else
creation with retry. -/
def get_or_create_client_resolved (pool : LspClientPool)
    (language_id project_root : String) (now : Nat)
    (outcome : Nat → Except String GenericLspClient) :
    Except String Nat × LspClientPool :=
  let instances0 := (lookupLang pool.clients language_id).getD []
  match findBestReuse instances0 project_root with
  | some idx =>
    match instances0[idx]? with
    | some pooled =>
      let updated := instances0.set idx
        { pooled with last_used := now, ref_count := pooled.ref_count + 1 }
      (Except.ok pooled.client,
       { pool with clients := setLang pool.clients language_id updated })
    | none => (Except.error ("impossible reuse index"), pool)
  | none =>
    let pool1 : LspClientPool :=
      { pool with clients := setLang pool.clients language_id instances0 }
    if pool.config.max_instances_per_language ≤ instances0.length then
      match findOldestIdle instances0 now with
      | some idx =>
        creationPathLen
          { pool with clients := setLang pool.clients language_id (instances0.eraseIdx idx) }
          language_id project_root now outcome
      | none =>
        match instances0 with
        | pooled :: rest =>
          let updated := { pooled with ref_count := pooled.ref_count + 1 } :: rest
          (Except.ok pooled.client,
           { pool with clients := setLang pool.clients language_id updated })
        | [] => creationPathLen pool1 language_id project_root now outcome
    else creationPathLen pool1 language_id project_root now outcome

/-- `get_or_create_client`: resolve the language from the file extension,
then run the resolved acquisition. -/
def get_or_create_client (pool : LspClientPool) (file_path project_root : String)
    (now : Nat) (outcome : Nat → Except String GenericLspClient) :
    Except String Nat × LspClientPool :=
  match get_language_id file_path with
  | none => (Except.error ("Unsupported file type: " ++ file_path), pool)
  | some language_id =>
    get_or_create_client_resolved pool language_id project_root now outcome

/-- First index whose record's project root equals `root` (the reuse scan of
`get_or_create_client_for_language`). -/
def findRootMatch : List PooledClient → String → Option Nat
  | [], _ => none
  | p :: rest, root =>
    if p.project_root = root then some 0
    else (findRootMatch rest root).map (· + 1)

/-- `get_or_create_client_for_language`: reuse the first record with the same
project root, else create with retry and install a record whose
`instance_id` comes from the shared atomic counter. -/
def get_or_create_client_for_language (pool : LspClientPool)
    (language_id project_root : String) (now : Nat)
    (outcome : Nat → Except String GenericLspClient) :
    Except String Nat × LspClientPool :=
  let instances0 := (lookupLang pool.clients language_id).getD []
  match findRootMatch instances0 project_root with
  | some idx =>
    match instances0[idx]? with
    | some pooled =>
      let updated := instances0.set idx
        { pooled with last_used := now, ref_count := pooled.ref_count + 1 }
      (Except.ok pooled.client,
       { pool with clients := setLang pool.clients language_id updated })
    | none => (Except.error ("impossible reuse index"), pool)
  | none =>
    match (create_client_with_retry pool.config outcome).1 with
    | Except.error e => (Except.error e, pool)
    | Except.ok c =>
      let caps := computeSummary c
      let newRecord : PooledClient :=
        { client := c.id
        , last_used := now
        , project_root := project_root
        , ref_count := 1
        , capabilities_summary := caps
        , instance_id := pool.next_instance_id }
      let updated := ((lookupLang pool.clients language_id).getD []) ++ [newRecord]
      (Except.ok c.id,
       { pool with
           next_instance_id := pool.next_instance_id + 1
           clients := setLang pool.clients language_id updated })

/-- `release_client`'s inner loop: decrement the first record with a positive
reference count, leave everything else untouched. -/
def decFirstPositive : List PooledClient → List PooledClient
  | [] => []
  | p :: rest =>
    if 0 < p.ref_count then { p with ref_count := p.ref_count - 1 } :: rest
    else p :: decFirstPositive rest

/-- `release_client`. -/
def release_client (pool : LspClientPool) (language_id : String) : LspClientPool :=
  match lookupLang pool.clients language_id with
  | none => pool
  | some xs =>
    { pool with clients := setLang pool.clients language_id (decFirstPositive xs) }

/-- The retention predicate of `cleanup_idle_clients`: keep a record iff it
is referenced or not yet idle for `max_idle_time`. -/
def keepRecord (cfg : PoolConfig) (now : Nat) (p : PooledClient) : Bool :=
  decide (0 < p.ref_count ∨ now - p.last_used < cfg.max_idle_time)

/-- `cleanup_idle_clients`: per-language `retain`, then drop empty language
entries. -/
def cleanup_idle_clients (pool : LspClientPool) (now : Nat) : LspClientPool :=
  let retained :=
    pool.clients.map (fun kv => (kv.1, kv.2.filter (keepRecord pool.config now)))
  { pool with clients := retained.filter (fun kv => !kv.2.isEmpty) }

/-- `get_stats`. -/
def get_stats (pool : LspClientPool) : PoolStats :=
  { total_clients := (pool.clients.map (fun kv => kv.2.length)).sum
  , active_clients :=
      (pool.clients.map (fun kv => (kv.2.filter (fun p => decide (0 < p.ref_count))).length)).sum
  , languages := pool.clients.map Prod.fst }

/-- `warm_up`: acquire each requested language in order via
`get_or_create_client_for_language`, collecting successes and failures
(observable in the log output), and return `Ok(())` unconditionally. -/
def warm_up (pool : LspClientPool) (project_root : String) (languages : List String)
    (now : Nat) (outcomes : String → Nat → Except String GenericLspClient) :
    Except String Unit × List String × List String × LspClientPool :=
  if languages.isEmpty then (Except.ok (), [], [], pool)
  else
    let final := languages.foldl
      (fun (acc : List String × List String × LspClientPool) lang =>
        match get_or_create_client_for_language acc.2.2 lang project_root now (outcomes lang) with
        | (Except.ok _, p') => (acc.1 ++ [lang], acc.2.1, p')
        | (Except.error _, p') => (acc.1, acc.2.1 ++ [lang], p'))
      ([], [], pool)
    (Except.ok (), final.1, final.2.1, final.2.2)

/-- `n` successive acquisitions for the same language and root. -/
def acquireN (pool : LspClientPool) (language_id project_root : String) (now : Nat)
    (outcome : Nat → Except String GenericLspClient) : Nat → LspClientPool
  | 0 => pool
  | n + 1 =>
    (get_or_create_client_resolved (acquireN pool language_id project_root now outcome n)
      language_id project_root now outcome).2

/-- `n` successive releases for the same language. -/
def releaseN (pool : LspClientPool) (language_id : String) : Nat → LspClientPool
  | 0 => pool
  | n + 1 => releaseN (release_client pool language_id) language_id n

/-- Number of pooled records the pool currently holds for a language. -/
def langCount (pool : LspClientPool) (language_id : String) : Nat :=
  ((lookupLang pool.clients language_id).getD []).length

/-! ### Association-list lemmas -/

theorem lookup_setLang_self (m : List (String × List PooledClient)) (k : String)
    (v : List PooledClient) : lookupLang (setLang m k v) k = some v := by
  induction m with
  | nil => simp [setLang, lookupLang]
  | cons kv rest ih =>
    obtain ⟨k0, v0⟩ := kv
    by_cases h : k0 = k <;> simp [setLang, lookupLang, h, ih]

theorem lookup_setLang_ne (m : List (String × List PooledClient)) (k k' : String)
    (v : List PooledClient) (h : k' ≠ k) :
    lookupLang (setLang m k v) k' = lookupLang m k' := by
  have hkk : ¬(k = k') := fun hh => h hh.symm
  induction m with
  | nil => simp [setLang, lookupLang, hkk]
  | cons kv rest ih =>
    obtain ⟨k0, v0⟩ := kv
    by_cases h0 : k0 = k
    · subst h0
      simp [setLang, lookupLang, hkk]
    · by_cases h1 : k0 = k' <;> simp [setLang, lookupLang, h0, h1, ih, h]

theorem setLang_eq_of_lookup (m : List (String × List PooledClient)) (k : String)
    (v : List PooledClient) (h : lookupLang m k = some v) : setLang m k v = m := by
  induction m with
  | nil => simp [lookupLang] at h
  | cons kv rest ih =>
    obtain ⟨k0, v0⟩ := kv
    by_cases h0 : k0 = k
    · subst h0
      simp [lookupLang] at h
      simp [setLang, h]
    · simp [lookupLang, h0] at h
      simp [setLang, h0, ih h]

theorem setLang_of_lookup_none (m : List (String × List PooledClient)) (k : String)
    (v : List PooledClient) (h : lookupLang m k = none) : setLang m k v = m ++ [(k, v)] := by
  induction m with
  | nil => simp [setLang]
  | cons kv rest ih =>
    obtain ⟨k0, v0⟩ := kv
    by_cases h0 : k0 = k
    · simp [lookupLang, h0] at h
    · simp [lookupLang, h0] at h
      simp [setLang, h0, ih h]

theorem keys_ne_of_lookup_none (m : List (String × List PooledClient)) (k : String)
    (h : lookupLang m k = none) : ∀ kv ∈ m, kv.1 ≠ k := by
  induction m with
  | nil => simp
  | cons kv0 rest ih =>
    obtain ⟨k0, v0⟩ := kv0
    by_cases h0 : k0 = k
    · simp [lookupLang, h0] at h
    · simp [lookupLang, h0] at h
      intro kv hkv
      rcases List.mem_cons.mp hkv with h1 | h1
      · simp [h1, h0]
      · exact ih h kv h1

/-! ### Generic list helpers -/

theorem getElem?_append_cons {α : Type} (pre : List α) (p : α) (post : List α) :
    (pre ++ p :: post)[pre.length]? = some p := by
  induction pre with
  | nil => simp
  | cons a pre ih => simpa using ih

theorem set_append_cons {α : Type} (pre : List α) (p v : α) (post : List α) :
    (pre ++ p :: post).set pre.length v = pre ++ v :: post := by
  induction pre with
  | nil => rfl
  | cons a pre ih => simp [List.set, ih]

/-! ### Characterization of the reuse scan -/

theorem reuseStep_inv (root : String) (processed : List PooledClient)
    (st : Nat × Option (Nat × Nat)) (p : PooledClient)
    (h : ReuseInv root processed st) :
    ReuseInv root (processed ++ [p]) (reuseStep root st p) := by
  obtain ⟨n, best⟩ := st
  obtain ⟨hlen, hbest⟩ := h
  simp only at hlen
  cases best with
  | none =>
    simp only [ReuseInv] at hbest
    by_cases hm : p.project_root = root
    · refine ⟨by simp [reuseStep, hm, hlen], ?_⟩
      simp only [reuseStep, hm, decide_True, Bool.true_and]
      refine ⟨processed, p, [], by simp, hlen.symm, hm, rfl, ?_, by simp⟩
      intro q hq hq'
      exact absurd hq' (hbest q hq)
    · refine ⟨by simp [reuseStep, hm, hlen], ?_⟩
      simp only [reuseStep, hm, decide_False, Bool.false_and, if_neg Bool.false_ne_true]
      intro q hq
      rcases List.mem_append.mp hq with h1 | h1
      · exact hbest q h1
      · simp at h1; subst h1; exact hm
  | some im =>
    obtain ⟨i, m⟩ := im
    simp only [ReuseInv] at hbest
    obtain ⟨pre, pp, post, hsplit, hpre, hmatch, href, hstrict, hweak⟩ := hbest
    by_cases hm : p.project_root = root
    · by_cases hlt : p.ref_count < m
      · refine ⟨by simp [reuseStep, hm, hlt, hlen], ?_⟩
        simp only [reuseStep, hm, hlt, decide_True, Bool.true_and, if_pos rfl]
        refine ⟨processed, p, [], by simp, hlen.symm, hm, rfl, ?_, by simp⟩
        intro q hq hq'
        rw [hsplit] at hq
        rcases List.mem_append.mp hq with h1 | h1
        · exact lt_trans hlt (hstrict q h1 hq')
        · rcases List.mem_cons.mp h1 with h2 | h2
          · subst h2; omega
          · exact lt_of_lt_of_le hlt (hweak q h2 hq')
      · refine ⟨by simp [reuseStep, hm, hlt, hlen], ?_⟩
        simp only [reuseStep, hm, hlt, decide_True, decide_False, Bool.true_and,
          if_neg Bool.false_ne_true]
        refine ⟨pre, pp, post ++ [p], by simp [hsplit], hpre, hmatch, href, hstrict, ?_⟩
        intro q hq hq'
        rcases List.mem_append.mp hq with h1 | h1
        · exact hweak q h1 hq'
        · simp at h1; subst h1; omega
    · refine ⟨by simp [reuseStep, hm, hlen], ?_⟩
      simp only [reuseStep, hm, decide_False, Bool.false_and, if_neg Bool.false_ne_true]
      refine ⟨pre, pp, post ++ [p], by simp [hsplit], hpre, hmatch, href, hstrict, ?_⟩
      intro q hq hq'
      rcases List.mem_append.mp hq with h1 | h1
      · exact hweak q h1 hq'
      · simp at h1; subst h1; exact absurd hq' hm

theorem foldl_reuse_inv (root : String) (xs : List PooledClient) :
    ∀ (processed : List PooledClient) (st : Nat × Option (Nat × Nat)),
      ReuseInv root processed st →
      ReuseInv root (processed ++ xs) (xs.foldl (reuseStep root) st) := by
  induction xs with
  | nil => intro processed st h; simpa using h
  | cons p xs ih =>
    intro processed st h
    have h1 := reuseStep_inv root processed st p h
    have h2 := ih (processed ++ [p]) _ h1
    simpa using h2

theorem reuse_inv_start (root : String) : ReuseInv root [] (0, none) := by
  exact ⟨rfl, by intro q hq; simp at hq⟩

theorem findBestReuse_eq_some (xs : List PooledClient) (root : String) (i : Nat)
    (h : findBestReuse xs root = some i) :
    ∃ pre p post, xs = pre ++ p :: post ∧ pre.length = i ∧
      p.project_root = root ∧
      (∀ q ∈ pre, q.project_root = root → p.ref_count < q.ref_count) ∧
      (∀ q ∈ post, q.project_root = root → p.ref_count ≤ q.ref_count) := by
  have hinv := foldl_reuse_inv root xs [] (0, none) (reuse_inv_start root)
  simp only [List.nil_append] at hinv
  obtain ⟨-, hbest⟩ := hinv
  unfold findBestReuse at h
  rcases hopt : (xs.foldl (reuseStep root) (0, none)).2 with - | im
  · rw [hopt] at h; simp at h
  · obtain ⟨j, m⟩ := im
    rw [hopt] at h hbest
    simp at h
    subst h
    simp only [ReuseInv] at hbest
    obtain ⟨pre, p, post, hsplit, hpre, hmatch, href, hstrict, hweak⟩ := hbest
    subst href
    exact ⟨pre, p, post, hsplit, hpre, hmatch, hstrict, hweak⟩

theorem findBestReuse_eq_none (xs : List PooledClient) (root : String)
    (h : findBestReuse xs root = none) : ∀ q ∈ xs, q.project_root ≠ root := by
  have hinv := foldl_reuse_inv root xs [] (0, none) (reuse_inv_start root)
  simp only [List.nil_append] at hinv
  obtain ⟨-, hbest⟩ := hinv
  unfold findBestReuse at h
  rcases hopt : (xs.foldl (reuseStep root) (0, none)).2 with - | im
  · rw [hopt] at hbest; exact hbest
  · rw [hopt] at h; simp at h

theorem findBestReuse_none_of_no_match (xs : List PooledClient) (root : String)
    (h : ∀ q ∈ xs, q.project_root ≠ root) : findBestReuse xs root = none := by
  rcases hopt : findBestReuse xs root with - | i
  · rfl
  · obtain ⟨pre, p, post, hsplit, -, hmatch, -, -⟩ := findBestReuse_eq_some xs root i hopt
    have : p ∈ xs := by rw [hsplit]; exact List.mem_append_right _ (List.mem_cons_self _ _)
    exact absurd hmatch (h p this)

/-! ### The eviction scan -/

theorem foldl_idle_none (xs : List PooledClient) :
    ∀ st : Nat × Nat × Option Nat, (∀ q ∈ xs, q.ref_count ≠ 0) → st.2.2 = none →
      (xs.foldl idleStep st).2.2 = none := by
  induction xs with
  | nil => intro st _ h0; simpa using h0
  | cons p xs ih =>
    intro st h h0
    have hp : p.ref_count ≠ 0 := h p (List.mem_cons_self _ _)
    have hstep : idleStep st p = (st.1 + 1, st.2.1, st.2.2) := by
      simp [idleStep, hp]
    rw [List.foldl_cons, hstep]
    exact ih _ (fun q hq => h q (List.mem_cons_of_mem _ hq)) h0

theorem findOldestIdle_none_of_all_pos (xs : List PooledClient) (now : Nat)
    (h : ∀ q ∈ xs, 0 < q.ref_count) : findOldestIdle xs now = none := by
  unfold findOldestIdle
  exact foldl_idle_none xs (0, now, none) (fun q hq => Nat.pos_iff_ne_zero.mp (h q hq)) rfl

theorem foldl_idle_bound (xs : List PooledClient) :
    ∀ st : Nat × Nat × Option Nat,
      (∀ j, st.2.2 = some j → j < st.1) →
      (xs.foldl idleStep st).1 = st.1 + xs.length ∧
      (∀ j, (xs.foldl idleStep st).2.2 = some j → j < (xs.foldl idleStep st).1) := by
  induction xs with
  | nil => intro st h; exact ⟨by simp, h⟩
  | cons p xs ih =>
    intro st h
    by_cases hc : p.ref_count = 0 ∧ p.last_used < st.2.1
    · have hstep : idleStep st p = (st.1 + 1, p.last_used, some st.1) := by
        simp [idleStep, hc]
      rw [List.foldl_cons, hstep]
      have := ih (st.1 + 1, p.last_used, some st.1)
        (by intro j hj; simp at hj; omega)
      refine ⟨by rw [this.1]; simp; omega, this.2⟩
    · have hstep : idleStep st p = (st.1 + 1, st.2.1, st.2.2) := by
        simp [idleStep, hc]
      rw [List.foldl_cons, hstep]
      have := ih (st.1 + 1, st.2.1, st.2.2)
        (by intro j hj; simp at hj; exact Nat.lt_succ_of_lt (h j hj))
      refine ⟨by rw [this.1]; simp; omega, this.2⟩

theorem findOldestIdle_lt_length (xs : List PooledClient) (now j : Nat)
    (h : findOldestIdle xs now = some j) : j < xs.length := by
  unfold findOldestIdle at h
  have := foldl_idle_bound xs (0, now, none) (by intro j hj; simp at hj)
  have hj := this.2 j h
  rw [this.1] at hj
  simpa using hj

/-! ### The retry loop -/

theorem retryGo_ok (outcome : Nat → Except String GenericLspClient)
    (c : GenericLspClient) (r attempt : Nat) (le : Option String)
    (h1 : outcome attempt = Except.ok c) :
    retryGo outcome (r + 1) attempt le = (Except.ok c, attempt, []) := by
  simp [retryGo, h1]

theorem create_with_retry_first_ok (cfg : PoolConfig)
    (outcome : Nat → Except String GenericLspClient) (c : GenericLspClient)
    (h1 : outcome 1 = Except.ok c) (hm : 1 ≤ cfg.max_retries) :
    create_client_with_retry cfg outcome = (Except.ok c, 1, []) := by
  unfold create_client_with_retry
  obtain ⟨r, hr⟩ : ∃ r, cfg.max_retries = r + 1 := ⟨cfg.max_retries - 1, by omega⟩
  rw [hr]
  exact retryGo_ok outcome c r 1 none h1

theorem retryGo_all_fail (outcome : Nat → Except String GenericLspClient)
    (h : ∀ n c, outcome n ≠ Except.ok c) :
    ∀ (r attempt : Nat) (le : Option String),
      ∃ e, (retryGo outcome r attempt le).1 = Except.error e := by
  intro r
  induction r with
  | zero => intro attempt le; exact ⟨_, rfl⟩
  | succ r ih =>
    intro attempt le
    rcases hout : outcome attempt with e | c
    · by_cases hr : r = 0
      · subst hr; exact ⟨e, by simp [retryGo, hout]⟩
      · obtain ⟨e', he'⟩ := ih (attempt + 1) (some e)
        exact ⟨e', by simp [retryGo, hout, hr, he']⟩
    · exact absurd hout (h attempt c)

theorem create_with_retry_all_fail (cfg : PoolConfig)
    (outcome : Nat → Except String GenericLspClient)
    (h : ∀ n c, outcome n ≠ Except.ok c) :
    ∃ e, (create_client_with_retry cfg outcome).1 = Except.error e :=
  retryGo_all_fail outcome h cfg.max_retries 1 none

/-! ### Branch equations for `get_or_create_client` -/

theorem get_or_create_reuse_eq (pool : LspClientPool) (L R : String) (now : Nat)
    (outcome : Nat → Except String GenericLspClient)
    (pre : List PooledClient) (p : PooledClient) (post : List PooledClient)
    (hlook : lookupLang pool.clients L = some (pre ++ p :: post))
    (hbest : findBestReuse (pre ++ p :: post) R = some pre.length) :
    get_or_create_client_resolved pool L R now outcome =
      (Except.ok p.client,
       { pool with clients :=
                     setLang pool.clients L
                       (pre ++ { p with last_used := now, ref_count := p.ref_count + 1 } :: post) }) := by
  unfold get_or_create_client_resolved
  rw [hlook]
  simp only [Option.getD_some]
  rw [hbest]
  simp only [getElem?_append_cons, set_append_cons]

theorem get_or_create_busy_eq (pool : LspClientPool) (L R : String) (now : Nat)
    (outcome : Nat → Except String GenericLspClient)
    (p : PooledClient) (rest : List PooledClient)
    (hlook : lookupLang pool.clients L = some (p :: rest))
    (hbest : findBestReuse (p :: rest) R = none)
    (hmax : pool.config.max_instances_per_language ≤ (p :: rest).length)
    (hidle : findOldestIdle (p :: rest) now = none) :
    get_or_create_client_resolved pool L R now outcome =
      (Except.ok p.client,
       { pool with clients :=
                     setLang pool.clients L
                       ({ p with ref_count := p.ref_count + 1 } :: rest) }) := by
  unfold get_or_create_client_resolved
  rw [hlook]
  simp only [Option.getD_some]
  rw [hbest]
  simp only [if_pos hmax]
  rw [hidle]

theorem get_or_create_fresh_create_eq (pool : LspClientPool) (L R : String) (now : Nat)
    (outcome : Nat → Except String GenericLspClient)
    (hlook : lookupLang pool.clients L = none)
    (hmaxpos : 1 ≤ pool.config.max_instances_per_language) :
    get_or_create_client_resolved pool L R now outcome =
      creationPathLen { pool with clients := setLang pool.clients L [] } L R now outcome := by
  unfold get_or_create_client_resolved
  rw [hlook]
  simp only [Option.getD_none]
  have hbest : findBestReuse ([] : List PooledClient) R = none := rfl
  rw [hbest]
  have : ¬ (pool.config.max_instances_per_language ≤ ([] : List PooledClient).length) := by
    simp; omega
  rw [if_neg this]

theorem setLang_setLang (m : List (String × List PooledClient)) (k : String)
    (v1 v2 : List PooledClient) : setLang (setLang m k v1) k v2 = setLang m k v2 := by
  induction m with
  | nil => simp [setLang]
  | cons kv rest ih =>
    obtain ⟨k0, v0⟩ := kv
    by_cases h0 : k0 = k
    · subst h0; simp [setLang]
    · simp [setLang, h0, ih]

theorem creationPathLen_fail_eq (pool : LspClientPool) (L R : String) (now : Nat)
    (outcome : Nat → Except String GenericLspClient) (e : String)
    (h : (create_client_with_retry pool.config outcome).1 = Except.error e) :
    creationPathLen pool L R now outcome = (Except.error e, pool) := by
  unfold creationPathLen
  rw [h]

theorem creationPathLen_ok_eq (pool : LspClientPool) (L R : String) (now : Nat)
    (outcome : Nat → Except String GenericLspClient) (c : GenericLspClient)
    (h : (create_client_with_retry pool.config outcome).1 = Except.ok c) :
    creationPathLen pool L R now outcome =
      (Except.ok c.id,
       { pool with clients :=
                     setLang pool.clients L
                       (((lookupLang pool.clients L).getD []) ++
                         [{ client := c.id, last_used := now, project_root := R, ref_count := 1,
                            capabilities_summary := computeSummary c,
                            instance_id := ((lookupLang pool.clients L).getD []).length }]) }) := by
  unfold creationPathLen
  rw [h]

theorem findBestReuse_singleton_match (q : PooledClient) (R : String)
    (h : q.project_root = R) : findBestReuse [q] R = some 0 := by
  simp [findBestReuse, reuseStep, h]

/-- The very first acquisition for a language with no pool entry creates the
record with reference count 1 and `instance_id` 0 (assigned from the list
length). -/
theorem first_acquire_from_none (pool : LspClientPool) (L R : String) (now : Nat)
    (outcome : Nat → Except String GenericLspClient) (c : GenericLspClient)
    (hlook : lookupLang pool.clients L = none)
    (hmax : 1 ≤ pool.config.max_instances_per_language)
    (hretr : 1 ≤ pool.config.max_retries)
    (hok : outcome 1 = Except.ok c) :
    get_or_create_client_resolved pool L R now outcome =
      (Except.ok c.id,
       { pool with clients :=
                     setLang pool.clients L
                       [{ client := c.id, last_used := now, project_root := R, ref_count := 1,
                          capabilities_summary := computeSummary c, instance_id := 0 }] }) := by
  rw [get_or_create_fresh_create_eq pool L R now outcome hlook hmax]
  have hcr : (create_client_with_retry pool.config outcome).1 = Except.ok c := by
    rw [create_with_retry_first_ok pool.config outcome c hok hretr]
  rw [creationPathLen_ok_eq { pool with clients := setLang pool.clients L [] } L R now outcome c hcr]
  simp [lookup_setLang_self, setLang_setLang]

/-- Reacquiring when the language's pool holds exactly one record for the
requested root bumps that record's reference count and timestamp. -/
theorem reacquire_single (pool : LspClientPool) (L R : String) (now : Nat)
    (outcome : Nat → Except String GenericLspClient) (q : PooledClient)
    (hlook : lookupLang pool.clients L = some [q])
    (hroot : q.project_root = R) :
    get_or_create_client_resolved pool L R now outcome =
      (Except.ok q.client,
       { pool with clients :=
                     setLang pool.clients L
                       [{ q with last_used := now, ref_count := q.ref_count + 1 }] }) := by
  have h := get_or_create_reuse_eq pool L R now outcome [] q [] (by simpa using hlook)
    (by simpa using findBestReuse_singleton_match q R hroot)
  simpa using h

/-! ### Release helpers -/

theorem decFirstPositive_of_all_zero (xs : List PooledClient)
    (h : ∀ q ∈ xs, q.ref_count = 0) : decFirstPositive xs = xs := by
  induction xs with
  | nil => rfl
  | cons p rest ih =>
    have hp : p.ref_count = 0 := h p (List.mem_cons_self _ _)
    simp [decFirstPositive, hp]
    exact ih (fun q hq => h q (List.mem_cons_of_mem _ hq))

theorem decFirstPositive_append (pre : List PooledClient) (p : PooledClient)
    (post : List PooledClient) (hpre : ∀ q ∈ pre, q.ref_count = 0)
    (hp : 0 < p.ref_count) :
    decFirstPositive (pre ++ p :: post) =
      pre ++ { p with ref_count := p.ref_count - 1 } :: post := by
  induction pre with
  | nil => simp [decFirstPositive, hp]
  | cons a pre ih =>
    have ha : a.ref_count = 0 := hpre a (List.mem_cons_self _ _)
    simp [decFirstPositive, ha]
    exact ih (fun q hq => hpre q (List.mem_cons_of_mem _ hq))

/-! ### Cleanup helpers -/

theorem lookup_eq_none_of_keys (m : List (String × List PooledClient)) (L : String)
    (h : ∀ kv ∈ m, kv.1 ≠ L) : lookupLang m L = none := by
  induction m with
  | nil => rfl
  | cons kv rest ih =>
    obtain ⟨k0, v0⟩ := kv
    have hk : k0 ≠ L := h (k0, v0) (List.mem_cons_self _ _)
    simp [lookupLang, hk]
    exact ih (fun kv hkv => h kv (List.mem_cons_of_mem _ hkv))

theorem lookup_cleanupList (cfg : PoolConfig) (now : Nat) :
    ∀ (m : List (String × List PooledClient)) (L : String), (m.map Prod.fst).Nodup →
      lookupLang
        ((m.map (fun kv => (kv.1, kv.2.filter (keepRecord cfg now)))).filter
          (fun kv => !kv.2.isEmpty)) L =
      match lookupLang m L with
      | none => none
      | some xs =>
        if (xs.filter (keepRecord cfg now)).isEmpty then none
        else some (xs.filter (keepRecord cfg now)) := by
  intro m
  induction m with
  | nil => intro L _; rfl
  | cons kv rest ih =>
    intro L hnd
    obtain ⟨k0, v0⟩ := kv
    simp only [List.map_cons, List.map] at hnd ⊢
    have hnd' : (rest.map Prod.fst).Nodup := hnd.of_cons
    by_cases hk : k0 = L
    · subst hk
      by_cases hemp : (v0.filter (keepRecord cfg now)).isEmpty
      · have hk0 : k0 ∉ rest.map Prod.fst := (List.nodup_cons.mp hnd).1
        have hrest : lookupLang rest k0 = none := by
          apply lookup_eq_none_of_keys
          intro kv hkv heq
          exact hk0 (heq ▸ List.mem_map_of_mem Prod.fst hkv)
        have := ih k0 hnd'
        rw [hrest] at this
        simp [List.filter, hemp, lookupLang, this]
      · simp [List.filter, hemp, lookupLang, hemp]
    · by_cases hemp : (v0.filter (keepRecord cfg now)).isEmpty
      · have := ih L hnd'
        simp [List.filter, hemp, lookupLang, hk, this]
      · have := ih L hnd'
        simp [List.filter, hemp, lookupLang, hk, this]

/-! ### C3 — retry count and backoff -/

/-- C3 counterexample: with `max_retries = 3` and an always-failing spawn,
the sleeps actually performed are 10ms and 20ms (`5 * 2^attempt` for the
1-based attempt counter, and only between consecutive attempts), not the
claimed 5ms, 10ms, 20ms. -/
theorem C3_counterexample :
    (create_client_with_retry { PoolConfig.default with max_retries := 3 }
      (fun _ => Except.error ("spawn failed"))).2.2 = [10, 20] ∧
    (create_client_with_retry { PoolConfig.default with max_retries := 3 }
      (fun _ => Except.error ("spawn failed"))).2.2 ≠ [5, 10, 20] ∧
    (create_client_with_retry { PoolConfig.default with max_retries := 3 }
      (fun _ => Except.error ("spawn failed"))).2.1 = 3 := by
  refine ⟨by decide, by decide, by decide⟩

/-- C3 (amended): for a pool configured with `max_retries = 3` and a
spawn-and-initialize that always fails, client creation makes exactly 3
attempts, sleeping `5ms * 2^attempt` (1-based attempt counter) between
consecutive attempts — so the two observed sleeps are 10ms then 20ms,
strictly increasing — and then fails carrying the last observed error. -/
theorem C3_retry_three_attempts (cfg : PoolConfig)
    (outcome : Nat → Except String GenericLspClient) (errs : Nat → String)
    (hcfg : cfg.max_retries = 3)
    (hfail : ∀ n, outcome n = Except.error (errs n)) :
    create_client_with_retry cfg outcome = (Except.error (errs 3), 3, [10, 20]) ∧
    10 < 20 := by
  refine ⟨?_, by omega⟩
  unfold create_client_with_retry
  rw [hcfg]
  show retryGo outcome (2 + 1) 1 none = _
  rw [retryGo, hfail 1]
  show (fun rest => ((rest.1, rest.2.1, 5 * 2 ^ 1 :: rest.2.2) :
      Except String GenericLspClient × Nat × List Nat)) (retryGo outcome (1 + 1) 2 (some (errs 1))) = _
  rw [retryGo, hfail 2]
  show (fun rest => ((rest.1, rest.2.1, 5 * 2 ^ 1 :: 5 * 2 ^ 2 :: rest.2.2) :
      Except String GenericLspClient × Nat × List Nat)) (retryGo outcome (0 + 1) 3 (some (errs 2))) = _
  rw [retryGo, hfail 3]
  norm_num

/-- C3 witness: the amended retry statement at a concrete configuration and
error sequence. -/
theorem C3_witness :
    create_client_with_retry { PoolConfig.default with max_retries := 3 }
      (fun _ => Except.error ("boom")) = (Except.error ("boom"), 3, [10, 20]) ∧
    10 < 20 :=
  C3_retry_three_attempts { PoolConfig.default with max_retries := 3 }
    (fun _ => Except.error ("boom")) (fun _ => "boom") rfl (fun _ => rfl)

/-! ### C4 — idle cleanup -/

/-- C4: `cleanup_idle_clients` retains a record if and only if its reference
count is positive or its idle duration (`now - last_used`) is below
`max_idle_time`; in particular a record with positive reference count is
never removed, and language entries left with zero records are removed from
the map. -/
theorem C4_cleanup_idle_clients (pool : LspClientPool) (now : Nat)
    (hnd : (pool.clients.map Prod.fst).Nodup) :
    (∀ L, lookupLang (cleanup_idle_clients pool now).clients L =
      match lookupLang pool.clients L with
      | none => none
      | some xs =>
        if (xs.filter (fun p =>
              decide (0 < p.ref_count ∨ now - p.last_used < pool.config.max_idle_time))).isEmpty
        then none
        else some (xs.filter (fun p =>
              decide (0 < p.ref_count ∨ now - p.last_used < pool.config.max_idle_time)))) ∧
    (∀ L xs q, lookupLang pool.clients L = some xs → q ∈ xs → 0 < q.ref_count →
      q ∈ (lookupLang (cleanup_idle_clients pool now).clients L).getD []) := by
  have key : ∀ L, lookupLang (cleanup_idle_clients pool now).clients L =
      match lookupLang pool.clients L with
      | none => none
      | some xs =>
        if (xs.filter (keepRecord pool.config now)).isEmpty then none
        else some (xs.filter (keepRecord pool.config now)) := by
    intro L
    exact lookup_cleanupList pool.config now pool.clients L hnd
  constructor
  · intro L
    exact key L
  · intro L xs q hlook hq hpos
    rw [key L, hlook]
    have hkeep : keepRecord pool.config now q = true := by
      simp [keepRecord]
      omega
    have hmem : q ∈ xs.filter (keepRecord pool.config now) :=
      List.mem_filter.mpr ⟨hq, hkeep⟩
    have hne : (xs.filter (keepRecord pool.config now)).isEmpty = false := by
      rcases hx : xs.filter (keepRecord pool.config now) with - | ⟨a, ys⟩
      · rw [hx] at hmem; simp at hmem
      · simp
    simp only [hne]
    simpa using hmem

/-- C4 witness: at a concrete pool, the referenced record survives an idle
sweep even though it is long idle, the unreferenced long-idle record is
dropped, and the characterization evaluates as stated. -/
theorem C4_witness :
    lookupLang (cleanup_idle_clients
      { clients := [(("rust"),
          [{ client := 1, last_used := 0, project_root := "r", ref_count := 1,
             capabilities_summary := capsNone, instance_id := 0 },
           { client := 2, last_used := 0, project_root := "r", ref_count := 0,
             capabilities_summary := capsNone, instance_id := 1 }])]
      , config := { max_instances_per_language := 4, max_idle_time := 100,
                    init_timeout := 8000, request_timeout := 2000, max_retries := 1 }
      , next_instance_id := 2 } 500).clients ("rust") =
    some [{ client := 1, last_used := 0, project_root := "r", ref_count := 1,
            capabilities_summary := capsNone, instance_id := 0 }] := by
  have h := C4_cleanup_idle_clients
    { clients := [(("rust"),
        [{ client := 1, last_used := 0, project_root := "r", ref_count := 1,
           capabilities_summary := capsNone, instance_id := 0 },
         { client := 2, last_used := 0, project_root := "r", ref_count := 0,
           capabilities_summary := capsNone, instance_id := 1 }])]
    , config := { max_instances_per_language := 4, max_idle_time := 100,
                  init_timeout := 8000, request_timeout := 2000, max_retries := 1 }
    , next_instance_id := 2 } 500 (by simp)
  have h1 := h.1 ("rust")
  rw [h1]
  decide

/-! ### C6 — release -/

theorem acquireN_state (pool : LspClientPool) (L R : String) (now : Nat)
    (outcome : Nat → Except String GenericLspClient) (c : GenericLspClient)
    (hlook : lookupLang pool.clients L = none)
    (hmax : 1 ≤ pool.config.max_instances_per_language)
    (hretr : 1 ≤ pool.config.max_retries)
    (hok : outcome 1 = Except.ok c) :
    ∀ n, lookupLang (acquireN pool L R now outcome (n + 1)).clients L =
      some [{ client := c.id, last_used := now, project_root := R, ref_count := n + 1,
              capabilities_summary := computeSummary c, instance_id := 0 }] := by
  intro n
  induction n with
  | zero =>
    show lookupLang (get_or_create_client_resolved (acquireN pool L R now outcome 0)
      L R now outcome).2.clients L = _
    rw [show acquireN pool L R now outcome 0 = pool from rfl]
    rw [first_acquire_from_none pool L R now outcome c hlook hmax hretr hok]
    simp [lookup_setLang_self]
  | succ n ih =>
    show lookupLang (get_or_create_client_resolved (acquireN pool L R now outcome (n + 1))
      L R now outcome).2.clients L = _
    rw [reacquire_single (acquireN pool L R now outcome (n + 1)) L R now outcome _ ih rfl]
    simp [lookup_setLang_self]

theorem releaseN_single (L : String) :
    ∀ (k : Nat) (pool : LspClientPool) (q : PooledClient),
      lookupLang pool.clients L = some [q] → q.ref_count = k →
      lookupLang (releaseN pool L k).clients L = some [{ q with ref_count := 0 }] := by
  intro k
  induction k with
  | zero =>
    intro pool q hlook href
    show lookupLang pool.clients L = _
    rw [hlook]
    have : { q with ref_count := 0 } = q := by
      cases q; simp_all
    rw [this]
  | succ k ih =>
    intro pool q hlook href
    show lookupLang (releaseN (release_client pool L) L k).clients L = _
    have hrel : release_client pool L =
        { pool with clients :=
                      setLang pool.clients L [{ q with ref_count := q.ref_count - 1 }] } := by
      unfold release_client
      simp only [hlook]
      have hdec : decFirstPositive [q] = [{ q with ref_count := q.ref_count - 1 }] := by
        simp [decFirstPositive, show 0 < q.ref_count by omega]
      rw [hdec]
    rw [hrel]
    have := ih
      { pool with clients :=
                    setLang pool.clients L [{ q with ref_count := q.ref_count - 1 }] }
      { q with ref_count := q.ref_count - 1 }
      (by simp [lookup_setLang_self]) (by simp; omega)
    simpa using this

/-- C6: `release_client` decrements the reference count of the first record
for the language with a positive reference count, is a silent no-op when no
record has a positive count (or the language is absent), and releasing `n`
times after `n` acquisitions for one `(language, root)` pair drives the
reference count back to 0. -/
theorem C6_release_client :
    (∀ (pool : LspClientPool) (L : String),
      (∀ q ∈ (lookupLang pool.clients L).getD [], q.ref_count = 0) →
      release_client pool L = pool) ∧
    (∀ (pool : LspClientPool) (L : String) (pre : List PooledClient) (p : PooledClient)
      (post : List PooledClient),
      lookupLang pool.clients L = some (pre ++ p :: post) →
      (∀ q ∈ pre, q.ref_count = 0) → 0 < p.ref_count →
      release_client pool L =
        { pool with clients :=
                      setLang pool.clients L
                        (pre ++ { p with ref_count := p.ref_count - 1 } :: post) }) ∧
    (∀ (pool : LspClientPool) (L R : String) (now : Nat)
      (outcome : Nat → Except String GenericLspClient) (c : GenericLspClient),
      lookupLang pool.clients L = none →
      1 ≤ pool.config.max_instances_per_language →
      1 ≤ pool.config.max_retries →
      outcome 1 = Except.ok c →
      ∀ n, lookupLang
          (releaseN (acquireN pool L R now outcome (n + 1)) L (n + 1)).clients L =
        some [{ client := c.id, last_used := now, project_root := R, ref_count := 0,
                capabilities_summary := computeSummary c, instance_id := 0 }]) := by
  refine ⟨?_, ?_, ?_⟩
  · intro pool L hzero
    unfold release_client
    rcases hlook : lookupLang pool.clients L with - | xs
    · rfl
    · rw [hlook] at hzero
      simp only [Option.getD_some] at hzero
      simp only [hlook]
      rw [decFirstPositive_of_all_zero xs hzero,
        setLang_eq_of_lookup pool.clients L xs hlook]
  · intro pool L pre p post hlook hpre hp
    unfold release_client
    simp only [hlook]
    rw [decFirstPositive_append pre p post hpre hp]
  · intro pool L R now outcome c hlook hmax hretr hok n
    have hacq := acquireN_state pool L R now outcome c hlook hmax hretr hok n
    have := releaseN_single L (n + 1) (acquireN pool L R now outcome (n + 1))
      { client := c.id, last_used := now, project_root := R, ref_count := n + 1,
        capabilities_summary := computeSummary c, instance_id := 0 } hacq rfl
    simpa using this

/-- C6 witness: two acquisitions then two releases at a concrete pool leave
the single record with reference count 0. -/
theorem C6_witness :
    lookupLang (releaseN (acquireN
      { clients := [], config := PoolConfig.default, next_instance_id := 0 }
      ("rust") ("r") 7 (fun _ => Except.ok { id := 9, has_capability := fun _ => false }) 2)
      ("rust") 2).clients ("rust") =
    some [{ client := 9, last_used := 7, project_root := "r", ref_count := 0,
            capabilities_summary := capsNone, instance_id := 0 }] := by
  have h := C6_release_client.2.2
    { clients := [], config := PoolConfig.default, next_instance_id := 0 }
    ("rust") ("r") 7 (fun _ => Except.ok { id := 9, has_capability := fun _ => false })
    { id := 9, has_capability := fun _ => false } rfl (by decide) (by decide) rfl 1
  have hcaps : computeSummary { id := 9, has_capability := fun _ => false } = capsNone := rfl
  rw [hcaps] at h
  exact h

/-! ### C5 / C9 — busy fallback -/

/-- C5: when the per-language instance count is at the configured maximum
(which is positive) and every record for the language is referenced,
acquisition does not fail: it returns a handle to one of the existing
records, the set of pooled instances is unchanged, and the total reference
count rises by exactly one — over-subscription instead of an error. -/
theorem C5_busy_oversubscribes (pool : LspClientPool) (L R : String) (now : Nat)
    (outcome : Nat → Except String GenericLspClient) (xs : List PooledClient)
    (hlook : lookupLang pool.clients L = some xs)
    (hfull : xs.length = pool.config.max_instances_per_language)
    (hmax : 1 ≤ pool.config.max_instances_per_language)
    (hbusy : ∀ q ∈ xs, 0 < q.ref_count) :
    (get_or_create_client_resolved pool L R now outcome).1 ∈
      xs.map (fun q => Except.ok (q.client)) ∧
    ((lookupLang (get_or_create_client_resolved pool L R now outcome).2.clients L).getD
        []).map (fun q => q.client) = xs.map (fun q => q.client) ∧
    (((lookupLang (get_or_create_client_resolved pool L R now outcome).2.clients L).getD
        []).map (fun q => q.ref_count)).sum = (xs.map (fun q => q.ref_count)).sum + 1 := by
  rcases hb : findBestReuse xs R with - | i
  · rcases xs with - | ⟨p, rest⟩
    · simp at hfull; omega
    · have hidle : findOldestIdle (p :: rest) now = none :=
        findOldestIdle_none_of_all_pos _ now hbusy
      have hle : pool.config.max_instances_per_language ≤ (p :: rest).length := by omega
      rw [get_or_create_busy_eq pool L R now outcome p rest hlook hb hle hidle]
      refine ⟨by simp, ?_, ?_⟩
      · simp [lookup_setLang_self]
      · simp [lookup_setLang_self]
        omega
  · obtain ⟨pre, p, post, hsplit, hpre, -, -, -⟩ := findBestReuse_eq_some xs R i hb
    subst hsplit
    rw [get_or_create_reuse_eq pool L R now outcome pre p post hlook (hpre ▸ hb)]
    refine ⟨by simp, ?_, ?_⟩
    · simp [lookup_setLang_self]
    · simp [lookup_setLang_self]
      omega

/-- C5 witness: a full, fully-busy single-instance pool still hands out a
handle (to the busy record) and bumps its reference count. -/
theorem C5_witness :
    (get_or_create_client_resolved
      { clients := [(("rust"),
          [{ client := 3, last_used := 2, project_root := "other", ref_count := 1,
             capabilities_summary := capsNone, instance_id := 0 }])]
      , config := { max_instances_per_language := 1, max_idle_time := 300000,
                    init_timeout := 8000, request_timeout := 2000, max_retries := 1 }
      , next_instance_id := 1 } ("rust") ("r") 9
      (fun _ => Except.error ("no spawn"))).1 ∈
      [Except.ok (3 : Nat)] ∧
    (((lookupLang (get_or_create_client_resolved
      { clients := [(("rust"),
          [{ client := 3, last_used := 2, project_root := "other", ref_count := 1,
             capabilities_summary := capsNone, instance_id := 0 }])]
      , config := { max_instances_per_language := 1, max_idle_time := 300000,
                    init_timeout := 8000, request_timeout := 2000, max_retries := 1 }
      , next_instance_id := 1 } ("rust") ("r") 9
      (fun _ => Except.error ("no spawn"))).2.clients ("rust")).getD []).map
        (fun q => q.ref_count)).sum = 2 := by
  have h := C5_busy_oversubscribes
    { clients := [(("rust"),
        [{ client := 3, last_used := 2, project_root := "other", ref_count := 1,
           capabilities_summary := capsNone, instance_id := 0 }])]
    , config := { max_instances_per_language := 1, max_idle_time := 300000,
                  init_timeout := 8000, request_timeout := 2000, max_retries := 1 }
    , next_instance_id := 1 } ("rust") ("r") 9 (fun _ => Except.error ("no spawn"))
    [{ client := 3, last_used := 2, project_root := "other", ref_count := 1,
       capabilities_summary := capsNone, instance_id := 0 }]
    rfl rfl (by decide) (by decide)
  refine ⟨by simpa using h.1, by rw [h.2.2]; decide⟩

/-- C9: in the busy-fallback path (no root match, cap reached, every record
referenced) the pool bumps and returns the FIRST record of the language's
list even though its project root differs from the requested one, and that
record's `last_used` timestamp is not updated. -/
theorem C9_busy_first_any_root (pool : LspClientPool) (L R : String) (now : Nat)
    (outcome : Nat → Except String GenericLspClient)
    (p : PooledClient) (rest : List PooledClient)
    (hlook : lookupLang pool.clients L = some (p :: rest))
    (hroots : ∀ q ∈ p :: rest, q.project_root ≠ R)
    (hle : pool.config.max_instances_per_language ≤ (p :: rest).length)
    (hbusy : ∀ q ∈ p :: rest, 0 < q.ref_count) :
    get_or_create_client_resolved pool L R now outcome =
      (Except.ok p.client,
       { pool with clients :=
                     setLang pool.clients L
                       ({ p with ref_count := p.ref_count + 1 } :: rest) }) ∧
    ({ p with ref_count := p.ref_count + 1 } : PooledClient).last_used = p.last_used ∧
    ({ p with ref_count := p.ref_count + 1 } : PooledClient).project_root =
      p.project_root ∧
    p.project_root ≠ R := by
  have hb : findBestReuse (p :: rest) R = none :=
    findBestReuse_none_of_no_match _ R hroots
  have hidle : findOldestIdle (p :: rest) now = none :=
    findOldestIdle_none_of_all_pos _ now hbusy
  exact ⟨get_or_create_busy_eq pool L R now outcome p rest hlook hb hle hidle,
    rfl, rfl, hroots p (List.mem_cons_self _ _)⟩

/-- C9 witness: the busy fallback at a concrete pool returns the first
instance (initialized against root "other", not the requested "r") with its
timestamp intact. -/
theorem C9_witness :
    get_or_create_client_resolved
      { clients := [(("rust"),
          [{ client := 3, last_used := 2, project_root := "other", ref_count := 1,
             capabilities_summary := capsNone, instance_id := 0 },
           { client := 4, last_used := 5, project_root := "other", ref_count := 2,
             capabilities_summary := capsNone, instance_id := 1 }])]
      , config := { max_instances_per_language := 2, max_idle_time := 300000,
                    init_timeout := 8000, request_timeout := 2000, max_retries := 1 }
      , next_instance_id := 2 } ("rust") ("r") 9 (fun _ => Except.error ("no spawn")) =
      (Except.ok 3,
       { clients := [(("rust"),
           [{ client := 3, last_used := 2, project_root := "other", ref_count := 2,
              capabilities_summary := capsNone, instance_id := 0 },
            { client := 4, last_used := 5, project_root := "other", ref_count := 2,
              capabilities_summary := capsNone, instance_id := 1 }])]
       , config := { max_instances_per_language := 2, max_idle_time := 300000,
                     init_timeout := 8000, request_timeout := 2000, max_retries := 1 }
       , next_instance_id := 2 }) := by
  have h := C9_busy_first_any_root
    { clients := [(("rust"),
        [{ client := 3, last_used := 2, project_root := "other", ref_count := 1,
           capabilities_summary := capsNone, instance_id := 0 },
         { client := 4, last_used := 5, project_root := "other", ref_count := 2,
           capabilities_summary := capsNone, instance_id := 1 }])]
    , config := { max_instances_per_language := 2, max_idle_time := 300000,
                  init_timeout := 8000, request_timeout := 2000, max_retries := 1 }
    , next_instance_id := 2 } ("rust") ("r") 9 (fun _ => Except.error ("no spawn"))
    { client := 3, last_used := 2, project_root := "other", ref_count := 1,
      capabilities_summary := capsNone, instance_id := 0 }
    [{ client := 4, last_used := 5, project_root := "other", ref_count := 2,
       capabilities_summary := capsNone, instance_id := 1 }]
    rfl (by decide) (by decide) (by decide)
  exact h.1

/-! ### C2 — reuse selection and double acquisition -/

/-- C2: the reuse path selects the root-matching record of minimal reference
count (first match wins ties): whenever the scan yields index `i`, the list
splits as `pre ++ p :: post` with `|pre| = i`, `p` root-matching, every
earlier root-matching record strictly more referenced and every later one at
least as referenced; acquisition then bumps exactly that record's timestamp
and reference count and returns its client handle; consequently two
acquisitions for the same `(language, root)` from a pool with no records for
the language yield handles to the same underlying client and leave one
record with reference count exactly 2. -/
theorem C2_reuse_min_and_double_acquire :
    (∀ (xs : List PooledClient) (root : String) (i : Nat),
      findBestReuse xs root = some i →
      ∃ pre p post, xs = pre ++ p :: post ∧ pre.length = i ∧
        p.project_root = root ∧
        (∀ q ∈ pre, q.project_root = root → p.ref_count < q.ref_count) ∧
        (∀ q ∈ post, q.project_root = root → p.ref_count ≤ q.ref_count)) ∧
    (∀ (pool : LspClientPool) (L R : String) (now : Nat)
      (outcome : Nat → Except String GenericLspClient)
      (pre : List PooledClient) (p : PooledClient) (post : List PooledClient),
      lookupLang pool.clients L = some (pre ++ p :: post) →
      findBestReuse (pre ++ p :: post) R = some pre.length →
      get_or_create_client_resolved pool L R now outcome =
        (Except.ok p.client,
         { pool with clients :=
                       setLang pool.clients L
                         (pre ++
                           { p with last_used := now, ref_count := p.ref_count + 1 } ::
                             post) })) ∧
    (∀ (pool : LspClientPool) (L R : String) (now1 now2 : Nat)
      (out1 out2 : Nat → Except String GenericLspClient) (c : GenericLspClient),
      lookupLang pool.clients L = none →
      1 ≤ pool.config.max_instances_per_language →
      1 ≤ pool.config.max_retries →
      out1 1 = Except.ok c →
      (get_or_create_client_resolved pool L R now1 out1).1 = Except.ok c.id ∧
      (get_or_create_client_resolved
        (get_or_create_client_resolved pool L R now1 out1).2 L R now2 out2).1 =
        Except.ok c.id ∧
      lookupLang (get_or_create_client_resolved
        (get_or_create_client_resolved pool L R now1 out1).2 L R now2 out2).2.clients L =
        some [{ client := c.id, last_used := now2, project_root := R, ref_count := 2,
                capabilities_summary := computeSummary c, instance_id := 0 }]) := by
  refine ⟨findBestReuse_eq_some, get_or_create_reuse_eq, ?_⟩
  intro pool L R now1 now2 out1 out2 c hlook hmax hretr hok
  have h1 := first_acquire_from_none pool L R now1 out1 c hlook hmax hretr hok
  have hrec1 : lookupLang (get_or_create_client_resolved pool L R now1 out1).2.clients L =
      some [{ client := c.id, last_used := now1, project_root := R, ref_count := 1,
              capabilities_summary := computeSummary c, instance_id := 0 }] := by
    rw [h1]
    simp [lookup_setLang_self]
  have h2 := reacquire_single (get_or_create_client_resolved pool L R now1 out1).2
    L R now2 out2
    { client := c.id, last_used := now1, project_root := R, ref_count := 1,
      capabilities_summary := computeSummary c, instance_id := 0 } hrec1 rfl
  refine ⟨by rw [h1], by rw [h2], ?_⟩
  rw [h2]
  simp [lookup_setLang_self]

/-- C2 witness: two concrete acquisitions for `("rust", "r")` starting from
an empty pool return the same client id 9 and leave reference count 2. -/
theorem C2_witness :
    (get_or_create_client_resolved
      { clients := [], config := PoolConfig.default, next_instance_id := 0 }
      ("rust") ("r") 3
      (fun _ => Except.ok { id := 9, has_capability := fun _ => false })).1 =
      Except.ok 9 ∧
    (get_or_create_client_resolved
      (get_or_create_client_resolved
        { clients := [], config := PoolConfig.default, next_instance_id := 0 }
        ("rust") ("r") 3
        (fun _ => Except.ok { id := 9, has_capability := fun _ => false })).2
      ("rust") ("r") 4
      (fun _ => Except.error ("unused"))).1 = Except.ok 9 ∧
    lookupLang (get_or_create_client_resolved
      (get_or_create_client_resolved
        { clients := [], config := PoolConfig.default, next_instance_id := 0 }
        ("rust") ("r") 3
        (fun _ => Except.ok { id := 9, has_capability := fun _ => false })).2
      ("rust") ("r") 4
      (fun _ => Except.error ("unused"))).2.clients ("rust") =
      some [{ client := 9, last_used := 4, project_root := "r", ref_count := 2,
              capabilities_summary := capsNone, instance_id := 0 }] := by
  have h := C2_reuse_min_and_double_acquire.2.2
    { clients := [], config := PoolConfig.default, next_instance_id := 0 }
    ("rust") ("r") 3 4
    (fun _ => Except.ok { id := 9, has_capability := fun _ => false })
    (fun _ => Except.error ("unused"))
    { id := 9, has_capability := fun _ => false }
    rfl (by decide) (by decide) rfl
  simpa using h

/-! ### C10 — failed creation leaves an empty language entry -/

theorem retryGo_all_fail_last (outcome : Nat → Except String GenericLspClient)
    (errs : Nat → String) (hfail : ∀ n, outcome n = Except.error (errs n)) :
    ∀ (r : Nat), 1 ≤ r → ∀ (attempt : Nat) (le : Option String),
      (retryGo outcome r attempt le).1 = Except.error (errs (attempt + r - 1)) := by
  intro r
  induction r with
  | zero => omega
  | succ r ih =>
    intro _ attempt le
    by_cases hr : r = 0
    · subst hr
      simp [retryGo, hfail attempt]
    · have := ih (by omega) (attempt + 1) (some (errs attempt))
      simp only [retryGo, hfail attempt, hr]
      rw [show attempt + 1 + r - 1 = attempt + (r + 1) - 1 by omega] at this
      simpa using this

theorem create_with_retry_fail_last (cfg : PoolConfig)
    (outcome : Nat → Except String GenericLspClient) (errs : Nat → String)
    (hfail : ∀ n, outcome n = Except.error (errs n)) (hretr : 1 ≤ cfg.max_retries) :
    (create_client_with_retry cfg outcome).1 = Except.error (errs cfg.max_retries) := by
  unfold create_client_with_retry
  have := retryGo_all_fail_last outcome errs hfail cfg.max_retries hretr 1 none
  rw [show 1 + cfg.max_retries - 1 = cfg.max_retries by omega] at this
  exact this

/-- C10: when every spawn attempt fails, `get_or_create_client` surfaces the
last error but leaves behind the empty record list inserted by the
slot-count check: the language now appears in `get_stats().languages` while
`total_clients` and `active_clients` are unchanged, and a later
`cleanup_idle_clients` removes the empty entry again. -/
theorem C10_failed_create_leaves_empty_entry (pool : LspClientPool) (L R : String)
    (now now2 : Nat) (outcome : Nat → Except String GenericLspClient)
    (errs : Nat → String)
    (hlook : lookupLang pool.clients L = none)
    (hmax : 1 ≤ pool.config.max_instances_per_language)
    (hretr : 1 ≤ pool.config.max_retries)
    (hfail : ∀ n, outcome n = Except.error (errs n)) :
    get_or_create_client_resolved pool L R now outcome =
      (Except.error (errs pool.config.max_retries),
       { pool with clients := pool.clients ++ [((L), ([] : List PooledClient))] }) ∧
    get_stats (get_or_create_client_resolved pool L R now outcome).2 =
      { total_clients := (get_stats pool).total_clients
      , active_clients := (get_stats pool).active_clients
      , languages := (get_stats pool).languages ++ [L] } ∧
    L ∈ (get_stats (get_or_create_client_resolved pool L R now outcome).2).languages ∧
    lookupLang (cleanup_idle_clients
      (get_or_create_client_resolved pool L R now outcome).2 now2).clients L = none := by
  have hmain : get_or_create_client_resolved pool L R now outcome =
      (Except.error (errs pool.config.max_retries),
       { pool with clients := pool.clients ++ [((L), ([] : List PooledClient))] }) := by
    rw [get_or_create_fresh_create_eq pool L R now outcome hlook hmax]
    have hcr : (create_client_with_retry pool.config outcome).1 =
        Except.error (errs pool.config.max_retries) :=
      create_with_retry_fail_last pool.config outcome errs hfail hretr
    rw [creationPathLen_fail_eq { pool with clients := setLang pool.clients L [] }
      L R now outcome (errs pool.config.max_retries) hcr]
    rw [setLang_of_lookup_none pool.clients L [] hlook]
  refine ⟨hmain, ?_, ?_, ?_⟩
  · rw [hmain]
    simp [get_stats]
  · rw [hmain]
    simp [get_stats]
  · rw [hmain]
    show lookupLang (cleanup_idle_clients _ now2).clients L = none
    unfold cleanup_idle_clients
    simp only [List.map_append, List.filter_append]
    apply lookup_eq_none_of_keys
    intro kv hkv
    simp only [List.mem_append] at hkv
    rcases hkv with hkv | hkv
    · have hkv' := List.mem_filter.mp hkv
      obtain ⟨kv0, hkv0, hkveq⟩ := List.mem_map.mp hkv'.1
      have := keys_ne_of_lookup_none pool.clients L hlook kv0 hkv0
      rw [← hkveq]
      exact this
    · simp [List.filter] at hkv

/-- C10 witness: a concrete failed acquisition for "rust" on an empty pool
leaves `[("rust", [])]` behind, visible in the statistics, and cleanup
removes it. -/
theorem C10_witness :
    get_or_create_client_resolved
      { clients := [], config := PoolConfig.default, next_instance_id := 0 }
      ("rust") ("r") 3 (fun _ => Except.error ("boom")) =
      (Except.error ("boom"),
       { clients := [(("rust"), ([] : List PooledClient))]
       , config := PoolConfig.default, next_instance_id := 0 }) ∧
    (get_stats (get_or_create_client_resolved
      { clients := [], config := PoolConfig.default, next_instance_id := 0 }
      ("rust") ("r") 3 (fun _ => Except.error ("boom"))).2).total_clients = 0 ∧
    (get_stats (get_or_create_client_resolved
      { clients := [], config := PoolConfig.default, next_instance_id := 0 }
      ("rust") ("r") 3 (fun _ => Except.error ("boom"))).2).languages = [("rust")] ∧
    lookupLang (cleanup_idle_clients (get_or_create_client_resolved
      { clients := [], config := PoolConfig.default, next_instance_id := 0 }
      ("rust") ("r") 3 (fun _ => Except.error ("boom"))).2 500).clients ("rust") =
      none := by
  have h := C10_failed_create_leaves_empty_entry
    { clients := [], config := PoolConfig.default, next_instance_id := 0 }
    ("rust") ("r") 3 500 (fun _ => Except.error ("boom")) (fun _ => "boom")
    rfl (by decide) (by decide) (fun _ => rfl)
  refine ⟨by simpa using h.1, ?_, ?_, h.2.2.2⟩
  · rw [h.1]
    decide
  · rw [h.1]
    decide

/-! ### C1 — the per-language cap -/

theorem langCount_setLang (pool : LspClientPool) (L : String) (v : List PooledClient)
    (l : String) :
    langCount { pool with clients := setLang pool.clients L v } l =
      if l = L then v.length else langCount pool l := by
  unfold langCount
  by_cases h : l = L
  · subst h
    simp [lookup_setLang_self]
  · simp only [h, if_false]
    rw [lookup_setLang_ne pool.clients L l v h]

theorem get_or_create_evict_eq (pool : LspClientPool) (L R : String) (now : Nat)
    (outcome : Nat → Except String GenericLspClient) (xs : List PooledClient) (idx : Nat)
    (hlook : lookupLang pool.clients L = some xs)
    (hbest : findBestReuse xs R = none)
    (hfull : pool.config.max_instances_per_language ≤ xs.length)
    (hidle : findOldestIdle xs now = some idx) :
    get_or_create_client_resolved pool L R now outcome =
      creationPathLen { pool with clients := setLang pool.clients L (xs.eraseIdx idx) }
        L R now outcome := by
  unfold get_or_create_client_resolved
  rw [hlook]
  simp only [Option.getD_some]
  rw [hbest]
  simp only [if_pos hfull]
  rw [hidle]

theorem get_or_create_underfull_eq (pool : LspClientPool) (L R : String) (now : Nat)
    (outcome : Nat → Except String GenericLspClient) (xs : List PooledClient)
    (hlook : lookupLang pool.clients L = some xs)
    (hbest : findBestReuse xs R = none)
    (hnotfull : ¬ pool.config.max_instances_per_language ≤ xs.length) :
    get_or_create_client_resolved pool L R now outcome =
      creationPathLen { pool with clients := setLang pool.clients L xs }
        L R now outcome := by
  unfold get_or_create_client_resolved
  rw [hlook]
  simp only [Option.getD_some]
  rw [hbest]
  simp only [if_neg hnotfull]

theorem langCount_creationPathLen (pool : LspClientPool) (L R : String) (now : Nat)
    (outcome : Nat → Except String GenericLspClient) (v : List PooledClient) (l : String) :
    langCount (creationPathLen { pool with clients := setLang pool.clients L v }
      L R now outcome).2 l ≤ (if l = L then v.length + 1 else langCount pool l) := by
  rcases hr : (create_client_with_retry pool.config outcome).1 with e | c
  · rw [creationPathLen_fail_eq { pool with clients := setLang pool.clients L v }
      L R now outcome e hr]
    rw [langCount_setLang]
    by_cases h : l = L <;> simp [h]
  · rw [creationPathLen_ok_eq { pool with clients := setLang pool.clients L v }
      L R now outcome c hr]
    have hv : lookupLang (setLang pool.clients L v) L = some v := lookup_setLang_self _ _ _
    have hstep : langCount { pool with clients := setLang pool.clients L v } l =
        if l = L then v.length else langCount pool l := langCount_setLang pool L v l
    have := langCount_setLang { pool with clients := setLang pool.clients L v } L
      (((lookupLang (setLang pool.clients L v) L).getD []) ++
        [{ client := c.id, last_used := now, project_root := R, ref_count := 1,
           capabilities_summary := computeSummary c,
           instance_id := ((lookupLang (setLang pool.clients L v) L).getD []).length }]) l
    rw [this]
    rw [hv]
    by_cases h : l = L
    · simp [h]
    · simp only [h, if_false]
      rw [hstep]
      simp [h]

/-- C1 counterexample: with `max_instances_per_language = 1`, two successful
`get_or_create_client_for_language` calls for the same language and distinct
project roots leave TWO records for that language — the warm-up entry point
never consults the cap, so the bound is violated without any busy-fallback. -/
theorem C1_counterexample :
    langCount
      (get_or_create_client_for_language
        (get_or_create_client_for_language
          { clients := []
          , config := { max_instances_per_language := 1, max_idle_time := 300000,
                        init_timeout := 8000, request_timeout := 2000, max_retries := 1 }
          , next_instance_id := 0 }
          ("nix") ("a") 0
          (fun _ => Except.ok { id := 21, has_capability := fun _ => false })).2
        ("nix") ("b") 1
        (fun _ => Except.ok { id := 22, has_capability := fun _ => false })).2
      ("nix") = 2 := by
  decide

/-- C1 (amended): the cap is maintained by the file-path entry point
`get_or_create_client` — for a positive configured maximum, if every
language's record count is within the maximum then it still is after any
acquisition through that entry point — but `get_or_create_client_for_language`
(the warm-up path) performs no cap check at all and can exceed the maximum. -/
theorem C1_cap_preserved_by_file_path_entry (pool : LspClientPool)
    (file_path R : String) (now : Nat)
    (outcome : Nat → Except String GenericLspClient)
    (hmax : 1 ≤ pool.config.max_instances_per_language)
    (hbound : ∀ l, langCount pool l ≤ pool.config.max_instances_per_language) :
    ∀ l, langCount (get_or_create_client pool file_path R now outcome).2 l ≤
      pool.config.max_instances_per_language := by
  have key : ∀ L l, langCount (get_or_create_client_resolved pool L R now outcome).2 l ≤
      pool.config.max_instances_per_language := by
    intro L l
    rcases hlk : lookupLang pool.clients L with - | xs
    · rw [get_or_create_fresh_create_eq pool L R now outcome hlk hmax]
      refine le_trans (langCount_creationPathLen pool L R now outcome [] l) ?_
      by_cases h : l = L
      · subst h
        rw [if_pos rfl]
        simp only [List.length_nil]
        omega
      · rw [if_neg h]
        exact hbound l
    · have hlenL : langCount pool L = xs.length := by
        unfold langCount
        rw [hlk]
        rfl
      have hbL := hbound L
      rcases hb : findBestReuse xs R with - | i
      · by_cases hfull : pool.config.max_instances_per_language ≤ xs.length
        · rcases hio : findOldestIdle xs now with - | idx
          · rcases hxs : xs with - | ⟨p, rest⟩
            · rw [hxs] at hfull
              simp at hfull
              omega
            · subst hxs
              rw [get_or_create_busy_eq pool L R now outcome p rest hlk hb hfull hio]
              rw [langCount_setLang]
              by_cases h : l = L
              · subst h
                rw [if_pos rfl]
                simp only [List.length_cons]
                simp only [List.length_cons] at hlenL
                omega
              · rw [if_neg h]
                exact hbound l
          · have hidxlt := findOldestIdle_lt_length xs now idx hio
            rw [get_or_create_evict_eq pool L R now outcome xs idx hlk hb hfull hio]
            refine le_trans
              (langCount_creationPathLen pool L R now outcome (xs.eraseIdx idx) l) ?_
            by_cases h : l = L
            · subst h
              rw [if_pos rfl]
              have herase : (xs.eraseIdx idx).length = xs.length - 1 :=
                List.length_eraseIdx_of_lt hidxlt
              omega
            · rw [if_neg h]
              exact hbound l
        · rw [get_or_create_underfull_eq pool L R now outcome xs hlk hb hfull]
          refine le_trans (langCount_creationPathLen pool L R now outcome xs l) ?_
          by_cases h : l = L
          · subst h
            rw [if_pos rfl]
            omega
          · rw [if_neg h]
            exact hbound l
      · obtain ⟨pre, p, post, hsplit, hpre, -, -, -⟩ := findBestReuse_eq_some xs R i hb
        subst hsplit
        rw [get_or_create_reuse_eq pool L R now outcome pre p post hlk (hpre ▸ hb)]
        rw [langCount_setLang]
        by_cases h : l = L
        · subst h
          rw [if_pos rfl]
          simp only [List.length_append, List.length_cons] at hlenL ⊢
          omega
        · rw [if_neg h]
          exact hbound l
  unfold get_or_create_client
  rcases hlid : get_language_id file_path with - | lid
  · intro l
    exact hbound l
  · intro l
    exact key lid l

/-- C1 witness: acquiring through the file-path entry point on a concrete
full pool (cap 1, record busy) keeps the record count for "rust" within the
cap. -/
theorem C1_witness :
    langCount (get_or_create_client
      { clients := [(("rust"),
          [{ client := 3, last_used := 2, project_root := "other", ref_count := 1,
             capabilities_summary := capsNone, instance_id := 0 }])]
      , config := { max_instances_per_language := 1, max_idle_time := 300000,
                    init_timeout := 8000, request_timeout := 2000, max_retries := 1 }
      , next_instance_id := 1 } ("main.rs") ("r") 9
      (fun _ => Except.ok { id := 8, has_capability := fun _ => false })).2 ("rust") ≤ 1 := by
  have h := C1_cap_preserved_by_file_path_entry
    { clients := [(("rust"),
        [{ client := 3, last_used := 2, project_root := "other", ref_count := 1,
           capabilities_summary := capsNone, instance_id := 0 }])]
    , config := { max_instances_per_language := 1, max_idle_time := 300000,
                  init_timeout := 8000, request_timeout := 2000, max_retries := 1 }
    , next_instance_id := 1 } ("main.rs") ("r") 9
    (fun _ => Except.ok { id := 8, has_capability := fun _ => false })
    (by decide)
    (by
      intro l
      unfold langCount lookupLang
      by_cases h : ("rust" : String) = l
      · simp [h]
      · simp [lookupLang, h])
    ("rust")
  exact h

/-! ### C8 — instance-id assignment -/

theorem findRootMatch_none_of_no_match (xs : List PooledClient) (R : String)
    (h : ∀ q ∈ xs, q.project_root ≠ R) : findRootMatch xs R = none := by
  induction xs with
  | nil => rfl
  | cons p rest ih =>
    have hp : p.project_root ≠ R := h p (List.mem_cons_self _ _)
    simp only [findRootMatch, if_neg hp]
    rw [ih (fun q hq => h q (List.mem_cons_of_mem _ hq))]
    rfl

theorem for_language_create_eq (pool : LspClientPool) (L R : String) (now : Nat)
    (outcome : Nat → Except String GenericLspClient) (c : GenericLspClient)
    (hnone : findRootMatch ((lookupLang pool.clients L).getD []) R = none)
    (hok : (create_client_with_retry pool.config outcome).1 = Except.ok c) :
    get_or_create_client_for_language pool L R now outcome =
      (Except.ok c.id,
       { pool with
           next_instance_id := pool.next_instance_id + 1
           clients := setLang pool.clients L
             (((lookupLang pool.clients L).getD []) ++
               [{ client := c.id, last_used := now, project_root := R, ref_count := 1,
                  capabilities_summary := computeSummary c,
                  instance_id := pool.next_instance_id }]) }) := by
  unfold get_or_create_client_for_language
  simp only [hnone, hok]

theorem for_language_fail_eq (pool : LspClientPool) (L R : String) (now : Nat)
    (outcome : Nat → Except String GenericLspClient) (e : String)
    (hnone : findRootMatch ((lookupLang pool.clients L).getD []) R = none)
    (hfail : (create_client_with_retry pool.config outcome).1 = Except.error e) :
    get_or_create_client_for_language pool L R now outcome = (Except.error e, pool) := by
  unfold get_or_create_client_for_language
  simp only [hnone, hfail]

/-- C8 counterexample: one insertion through the file-path entry point (for
"rust") and one through the warm-up entry point (for "nix") both produce
`instance_id = 0` — the file-path path assigns ids from the per-language list
length and never touches the shared counter, so ids are neither drawn from a
single shared generator nor globally unique. -/
theorem C8_counterexample :
    (((lookupLang
        (get_or_create_client_for_language
          (get_or_create_client_resolved
            { clients := [], config := PoolConfig.default, next_instance_id := 0 }
            ("rust") ("r") 0
            (fun _ => Except.ok { id := 10, has_capability := fun _ => false })).2
          ("nix") ("r") 1
          (fun _ => Except.ok { id := 11, has_capability := fun _ => false })).2.clients
        ("rust")).getD []).map (fun q => q.instance_id) = [0]) ∧
    (((lookupLang
        (get_or_create_client_for_language
          (get_or_create_client_resolved
            { clients := [], config := PoolConfig.default, next_instance_id := 0 }
            ("rust") ("r") 0
            (fun _ => Except.ok { id := 10, has_capability := fun _ => false })).2
          ("nix") ("r") 1
          (fun _ => Except.ok { id := 11, has_capability := fun _ => false })).2.clients
        ("nix")).getD []).map (fun q => q.instance_id) = [0]) ∧
    (get_or_create_client_resolved
      { clients := [], config := PoolConfig.default, next_instance_id := 0 }
      ("rust") ("r") 0
      (fun _ => Except.ok { id := 10, has_capability := fun _ => false })).2.next_instance_id
      = 0 := by
  refine ⟨by decide, by decide, by decide⟩

/-- C8 (amended): only `get_or_create_client_for_language` draws instance ids
from the shared monotonic counter (and increments it); `get_or_create_client`
assigns the new record's id from the current length of the language's
instance list and leaves the shared counter untouched, so ids assigned by
the two creation paths can collide. -/
theorem C8_two_id_strategies :
    (∀ (pool : LspClientPool) (L R : String) (now : Nat)
      (outcome : Nat → Except String GenericLspClient) (c : GenericLspClient),
      (∀ q ∈ (lookupLang pool.clients L).getD [], q.project_root ≠ R) →
      (create_client_with_retry pool.config outcome).1 = Except.ok c →
      get_or_create_client_for_language pool L R now outcome =
        (Except.ok c.id,
         { pool with
             next_instance_id := pool.next_instance_id + 1
             clients := setLang pool.clients L
               (((lookupLang pool.clients L).getD []) ++
                 [{ client := c.id, last_used := now, project_root := R, ref_count := 1,
                    capabilities_summary := computeSummary c,
                    instance_id := pool.next_instance_id }]) })) ∧
    (∀ (pool : LspClientPool) (L R : String) (now : Nat)
      (outcome : Nat → Except String GenericLspClient) (c : GenericLspClient)
      (xs : List PooledClient),
      lookupLang pool.clients L = some xs →
      findBestReuse xs R = none →
      ¬ pool.config.max_instances_per_language ≤ xs.length →
      (create_client_with_retry pool.config outcome).1 = Except.ok c →
      get_or_create_client_resolved pool L R now outcome =
        (Except.ok c.id,
         { pool with clients :=
                       setLang pool.clients L
                         (xs ++
                           [{ client := c.id, last_used := now, project_root := R,
                              ref_count := 1, capabilities_summary := computeSummary c,
                              instance_id := xs.length }]) })) := by
  constructor
  · intro pool L R now outcome c hroots hok
    exact for_language_create_eq pool L R now outcome c
      (findRootMatch_none_of_no_match _ R hroots) hok
  · intro pool L R now outcome c xs hlk hb hnotfull hok
    rw [get_or_create_underfull_eq pool L R now outcome xs hlk hb hnotfull]
    have hok' : (create_client_with_retry
        ({ pool with clients := setLang pool.clients L xs } : LspClientPool).config
        outcome).1 = Except.ok c := hok
    rw [creationPathLen_ok_eq { pool with clients := setLang pool.clients L xs }
      L R now outcome c hok']
    simp [lookup_setLang_self, setLang_setLang]

/-- C8 witness: the two id-assignment strategies evaluated at concrete
pools: the warm-up path mints id 5 from the counter and bumps it, the
file-path path mints id 1 from the list length and leaves the counter at 5. -/
theorem C8_witness :
    get_or_create_client_for_language
      { clients := [], config := PoolConfig.default, next_instance_id := 5 }
      ("nix") ("r") 2 (fun _ => Except.ok { id := 30, has_capability := fun _ => false }) =
      (Except.ok 30,
       { clients := [(("nix"),
           [{ client := 30, last_used := 2, project_root := "r", ref_count := 1,
              capabilities_summary := capsNone, instance_id := 5 }])]
       , config := PoolConfig.default, next_instance_id := 6 }) ∧
    get_or_create_client_resolved
      { clients := [(("nix"),
          [{ client := 30, last_used := 2, project_root := "q", ref_count := 1,
             capabilities_summary := capsNone, instance_id := 5 }])]
      , config := PoolConfig.default, next_instance_id := 5 }
      ("nix") ("r") 3 (fun _ => Except.ok { id := 31, has_capability := fun _ => false }) =
      (Except.ok 31,
       { clients := [(("nix"),
           [{ client := 30, last_used := 2, project_root := "q", ref_count := 1,
              capabilities_summary := capsNone, instance_id := 5 },
            { client := 31, last_used := 3, project_root := "r", ref_count := 1,
              capabilities_summary := capsNone, instance_id := 1 }])]
       , config := PoolConfig.default, next_instance_id := 5 }) := by
  constructor
  · have h := C8_two_id_strategies.1
      { clients := [], config := PoolConfig.default, next_instance_id := 5 }
      ("nix") ("r") 2 (fun _ => Except.ok { id := 30, has_capability := fun _ => false })
      { id := 30, has_capability := fun _ => false }
      (by intro q hq; simp [lookupLang] at hq) rfl
    simpa using h
  · have h := C8_two_id_strategies.2
      { clients := [(("nix"),
          [{ client := 30, last_used := 2, project_root := "q", ref_count := 1,
             capabilities_summary := capsNone, instance_id := 5 }])]
      , config := PoolConfig.default, next_instance_id := 5 }
      ("nix") ("r") 3 (fun _ => Except.ok { id := 31, has_capability := fun _ => false })
      { id := 31, has_capability := fun _ => false }
      [{ client := 30, last_used := 2, project_root := "q", ref_count := 1,
         capabilities_summary := capsNone, instance_id := 5 }]
      rfl (by decide) (by decide) rfl
    simpa using h

/-! ### C7 — warm-up -/

/-- C7: `warm_up` tries each requested language in order through
`get_or_create_client_for_language`; it returns overall success
unconditionally, and an individual failure never aborts the remaining
languages: for `[L1, L2]` where `L1` succeeds and `L2` always fails to
spawn, the result is success with success list `[L1]` and failure list
`[L2]`, and the pool holds exactly one active record for `L1` while `L2`
still has no entry. -/
theorem C7_warm_up_collects_failures :
    (∀ (pool : LspClientPool) (root : String) (languages : List String) (now : Nat)
      (outcomes : String → Nat → Except String GenericLspClient),
      (warm_up pool root languages now outcomes).1 = Except.ok ()) ∧
    (∀ (pool : LspClientPool) (root L1 L2 : String) (now : Nat)
      (outcomes : String → Nat → Except String GenericLspClient) (c : GenericLspClient),
      L2 ≠ L1 →
      lookupLang pool.clients L1 = none →
      lookupLang pool.clients L2 = none →
      1 ≤ pool.config.max_retries →
      outcomes L1 1 = Except.ok c →
      (∀ n c', outcomes L2 n ≠ Except.ok c') →
      warm_up pool root [L1, L2] now outcomes =
        (Except.ok (), [L1], [L2],
         { pool with
             next_instance_id := pool.next_instance_id + 1
             clients := setLang pool.clients L1
               [{ client := c.id, last_used := now, project_root := root, ref_count := 1,
                  capabilities_summary := computeSummary c,
                  instance_id := pool.next_instance_id }] })) := by
  constructor
  · intro pool root languages now outcomes
    unfold warm_up
    by_cases h : languages.isEmpty <;> simp [h]
  · intro pool root L1 L2 now outcomes c hne hlook1 hlook2 hretr hok1 hfail2
    have hn1 : findRootMatch ((lookupLang pool.clients L1).getD []) root = none := by
      rw [hlook1]
      rfl
    have hcr1 : (create_client_with_retry pool.config (outcomes L1)).1 = Except.ok c := by
      rw [create_with_retry_first_ok pool.config (outcomes L1) c hok1 hretr]
    have e1 := for_language_create_eq pool L1 root now (outcomes L1) c hn1 hcr1
    rw [hlook1] at e1
    simp only [Option.getD_none, List.nil_append] at e1
    set pool2 : LspClientPool :=
      { pool with
          next_instance_id := pool.next_instance_id + 1
          clients := setLang pool.clients L1
            [{ client := c.id, last_used := now, project_root := root, ref_count := 1,
               capabilities_summary := computeSummary c,
               instance_id := pool.next_instance_id }] } with hpool2
    have hlook2' : lookupLang pool2.clients L2 = none := by
      rw [hpool2]
      show lookupLang (setLang pool.clients L1 _) L2 = none
      rw [lookup_setLang_ne pool.clients L1 L2 _ hne]
      exact hlook2
    have hn2 : findRootMatch ((lookupLang pool2.clients L2).getD []) root = none := by
      rw [hlook2']
      rfl
    obtain ⟨e, he⟩ := create_with_retry_all_fail pool2.config (outcomes L2) hfail2
    have e2 := for_language_fail_eq pool2 L2 root now (outcomes L2) e hn2 he
    unfold warm_up
    simp only [List.isEmpty_cons, Bool.false_eq_true, if_false, List.foldl_cons,
      List.foldl_nil, e1, e2, List.nil_append]

/-- C7 witness: warming up `["nix", "rust"]` on an empty pool where the nix
spawn succeeds (client 40) and the rust spawn always fails returns overall
success with failure list `["rust"]` and one active nix record. -/
theorem C7_witness :
    warm_up { clients := [], config := PoolConfig.default, next_instance_id := 0 }
      ("r") [("nix"), ("rust")] 6
      (fun L _ => if L = ("nix")
        then Except.ok { id := 40, has_capability := fun _ => false }
        else Except.error ("fail")) =
      (Except.ok (), [("nix")], [("rust")],
       { clients := [(("nix"),
           [{ client := 40, last_used := 6, project_root := "r", ref_count := 1,
              capabilities_summary := capsNone, instance_id := 0 }])]
       , config := PoolConfig.default, next_instance_id := 1 }) := by
  have h := C7_warm_up_collects_failures.2
    { clients := [], config := PoolConfig.default, next_instance_id := 0 }
    ("r") ("nix") ("rust") 6
    (fun L _ => if L = ("nix")
      then Except.ok { id := 40, has_capability := fun _ => false }
      else Except.error ("fail"))
    { id := 40, has_capability := fun _ => false }
    (by decide) rfl rfl (by decide) rfl
    (by intro n c' hcontra; exact Except.noConfusion hcontra)
  simpa using h

end LspPool
